import Mathlib

/-!
Verification of the verdict aggregation / confidence-scoring model of the
GammaX financial dashboard.

Numbers are modelled exactly as rationals (finite JavaScript doubles are
rationals; the claims under verification do not hinge on binary floating
point rounding).  JavaScript values that may be non-finite are modelled by
the type `JsNum` below.  The display logic is translated from
`src/client/src/components/VerdictTile.tsx` and `src/server/routes.ts`;
the verdict engine itself (`evaluate`) is not present in the repository's
source and is modelled from the specification, as indicated by doc
comments on the corresponding definitions.
-/

namespace GammaX

/-- A JavaScript number: either a finite value (a rational) or one of the
non-finite values NaN, +Infinity, -Infinity. -/
inductive JsNum where
  | fin (q : ℚ)
  | nan
  | posInf
  | negInf
deriving DecidableEq, Repr

/-- Whether a JavaScript number is finite (`Number.isFinite`). -/
def JsNum.isFinite : JsNum → Bool
  | .fin _ => true
  | _ => false

/-- The rational value of a finite JavaScript number (0 on non-finite
inputs; only ever applied to finite values after validation). -/
def JsNum.toRat : JsNum → ℚ
  | .fin q => q
  | _ => 0

/-- Verdict direction, from the `direction` enum of `verdictSchema` in
`src/client/src/components/VerdictTile.tsx` (shared schema part). -/
inductive Direction where
  | BULLISH
  | BEARISH
  | NEUTRAL
deriving DecidableEq, Repr

/-- Data-quality grade, from the `data_quality` enum of `verdictSchema`. -/
inductive DataQuality where
  | GOOD
  | LOW
  | INSUFFICIENT
deriving DecidableEq, Repr

/-- The `n_samples` field of `verdictSchema`: a union of a bare number and
a structured object with sub-counts `slippage`, `monte`, `features`. -/
inductive NSamples where
  | count (n : ℕ)
  | breakdown (slippage monte features : ℕ)
deriving DecidableEq, Repr

/-- One weighted signal, from `verdictComponentSchema`
(`name`, `weight`, `value`, `contribution`). -/
structure VerdictComponent where
  name : String
  weight : ℚ
  value : ℚ
  contribution : ℚ
deriving DecidableEq, Repr

/-- The aggregate verdict record, from `verdictSchema`
(the optional free-form `params` bag is output-only provenance that no
verified code path reads, and is omitted). -/
structure Verdict where
  timestamp : String
  direction : Direction
  points : ℚ
  error : ℚ
  confidence : ℚ
  components : List VerdictComponent
  explanation : String
  data_quality : DataQuality
  n_samples : NSamples
deriving DecidableEq, Repr

/-- JavaScript `Math.round`: the nearest integer, rounding halves toward
positive infinity. -/
def jsRound (q : ℚ) : ℤ := ⌊q + 1 / 2⌋

/-- The points value displayed by the VerdictTile
(`VerdictTile.tsx` line 104-106): when `confidence < 0.4` the raw points
are rounded to the nearest multiple of 5 via
`Math.round(points / 5) * 5`, otherwise the raw points are shown. -/
def roundedPoints (v : Verdict) : ℚ :=
  if v.confidence < 2 / 5 then (jsRound (v.points / 5) : ℚ) * 5 else v.points

/-- The error band displayed by the VerdictTile (`VerdictTile.tsx`
line 163): the raw `error` field, never rounded. -/
def displayedError (v : Verdict) : ℚ := v.error

/-- The sample count displayed by the VerdictTile (`VerdictTile.tsx`
lines 202-208): the `features` sub-count when `n_samples` is the
structured object, the bare count when it is a number. -/
def displayedSamples : NSamples → ℕ
  | .count n => n
  | .breakdown _ _ features => features

/-- Clamp a rational to the closed interval `[0, 1]`. -/
def clamp01 (q : ℚ) : ℚ := max 0 (min 1 q)

/-- Modelled from the spec: the trade-sizing multiplier is not computed in
the repository's source (the dashboard only reads
`metrics.trade_sizing_multiplier`); spec §4.1 step 10 says it is obtained
by applying the configured `sizingCurve` to `confidence` and `error` and
clamping to `[0, 1]`. -/
def applySizingCurve (curve : ℚ → ℚ → ℚ) (confidence err : ℚ) : ℚ :=
  clamp01 (curve confidence err)

/-- Engine input: one `(name, weight, value)` triple, spec §4.1; the
value may be any JavaScript number, including a non-finite one. -/
structure ComponentInput where
  name : String
  weight : ℚ
  value : JsNum
deriving DecidableEq, Repr

/-- Sample-count cutoffs below which data quality degrades, spec §4.1
(`confidenceThresholds`). -/
structure ConfidenceThresholds where
  low : ℕ
  insufficient : ℕ
deriving DecidableEq, Repr

/-- Engine configuration, spec §4.1. -/
structure VerdictConfig where
  confidenceThresholds : ConfidenceThresholds
  directionThreshold : ℚ
  roundingConfidenceCutoff : ℚ
  forbidNegativeWeights : Bool
deriving DecidableEq, Repr

/-- The engine's only error, spec §7: `InvalidInput`, carrying a message
naming the offending component. -/
inductive EvalError where
  | invalidInput (msg : String)
deriving DecidableEq, Repr

/-- Modelled from the spec: validation of one component, spec §4.1
step 1 and the error-conditions list — a component is rejected when its
value is not finite, or when its weight is negative while the
configuration forbids negative weights; the offending component is
named. -/
def invalidReason (forbidNeg : Bool) (c : ComponentInput) : Option String :=
  if c.value.isFinite = false then some c.name
  else if forbidNeg = true ∧ c.weight < 0 then some c.name
  else none

/-- Modelled from the spec: spec §4.1 step 2, `contribution =
weight * value` for a validated (finite-valued) component. -/
def mkComponent (c : ComponentInput) : VerdictComponent :=
  { name := c.name
    weight := c.weight
    value := c.value.toRat
    contribution := c.weight * c.value.toRat }

/-- The component records of a validated input, in input order. -/
def computeComponents (cs : List ComponentInput) : List VerdictComponent :=
  cs.map mkComponent

/-- Modelled from the spec: spec §4.1 step 6 — BULLISH when
`points >= directionThreshold`, else BEARISH when
`points <= -directionThreshold`, else NEUTRAL. -/
def directionOf (pts threshold : ℚ) : Direction :=
  if threshold ≤ pts then .BULLISH
  else if pts ≤ -threshold then .BEARISH
  else .NEUTRAL

/-- Modelled from the spec: spec §4.1 step 7 — the insufficient check is
applied first (most severe grade wins), then the low check. -/
def gradeDataQuality (n : ℕ) (t : ConfidenceThresholds) : DataQuality :=
  if n < t.insufficient then .INSUFFICIENT
  else if n < t.low then .LOW
  else .GOOD

/-- Modelled from the spec: the relevant sample count behind a verdict —
the bare count, or, for a structured breakdown, the minimum of the
sub-counts (spec §4.1 step 7 compares the "total/minimum relevant sample
count"; the minimum realizes "most severe wins"). -/
def relevantCount : NSamples → ℕ
  | .count n => n
  | .breakdown s m f => min s (min m f)

/-- Modelled from the spec: spec §4.1 step 4 asks for a non-negative
dispersion measure over the contributions; the mean absolute deviation
is used. -/
def meanAbsDeviation (l : List ℚ) : ℚ :=
  if l.isEmpty = true then 0
  else (l.map (fun x => |x - l.sum / l.length|)).sum / l.length

/-- Modelled from the spec: spec §4.1 step 5 — a confidence score that
increases with the sample count, decreases as the error grows relative
to the points magnitude, and is clamped to `[0, 1]`. -/
def confidenceScore (n : ℕ) (err pts : ℚ) : ℚ :=
  clamp01 ((n : ℚ) / (n + 1) * (|pts| / (|pts| + err + 1)))

/-- The ordering used to sort output components, on components paired
with their original input position: larger absolute contribution first,
ties broken by original position (spec §4.1 step 8: a stable sort by
descending absolute contribution). -/
def compRel (a b : ℕ × VerdictComponent) : Prop :=
  |b.2.contribution| < |a.2.contribution| ∨
    (|a.2.contribution| = |b.2.contribution| ∧ a.1 ≤ b.1)

instance : DecidableRel compRel := fun a b => by
  unfold compRel
  exact inferInstance

/-- Modelled from the spec: spec §4.1 step 8 — sort the output components
by descending absolute contribution with ties kept in original input
order (a stable sort, realized by tagging each component with its input
position and breaking ties on the position). -/
def sortComponents (l : List VerdictComponent) : List VerdictComponent :=
  (l.enum.insertionSort compRel).map Prod.snd

/-- Display name of a direction. -/
def directionText : Direction → String
  | .BULLISH => "BULLISH"
  | .BEARISH => "BEARISH"
  | .NEUTRAL => "NEUTRAL"

/-- Modelled from the spec: spec §4.1 step 9 — a deterministic
natural-language summary referencing the direction and the top
contributors by magnitude. -/
def explanationText (d : Direction) (sorted : List VerdictComponent) : String :=
  directionText d ++ " verdict led by " ++
    String.intercalate ", " ((sorted.take 2).map (fun c => c.name))

/-- Modelled from the spec: the verdict produced on a validated input,
spec §4.1 steps 2-9. -/
def mkVerdict (cs : List ComponentInput) (sc : NSamples) (cfg : VerdictConfig)
    (timestamp : String) : Verdict :=
  let comps := computeComponents cs
  let contribs := comps.map (fun c => c.contribution)
  let pts := contribs.sum
  let errv := meanAbsDeviation contribs
  let sorted := sortComponents comps
  { timestamp := timestamp
    direction := directionOf pts cfg.directionThreshold
    points := pts
    error := errv
    confidence := confidenceScore (relevantCount sc) errv pts
    components := sorted
    explanation := explanationText (directionOf pts cfg.directionThreshold) sorted
    data_quality := gradeDataQuality (relevantCount sc) cfg.confidenceThresholds
    n_samples := sc }

/-- Modelled from the spec: the verdict engine
`evaluate(components, sampleCounts, config) -> Verdict` of spec §4.1 —
absent from the repository's source (only its schema, display consumer
and upstream callers appear there).  It validates the input (spec
step 1: empty component set or non-finite value fails fast with
`InvalidInput`; the error-conditions list also rejects a negative weight
when the config forbids negative weights) and otherwise assembles the
verdict record; the timestamp is injected by the caller. -/
def evaluate (cs : List ComponentInput) (sc : NSamples) (cfg : VerdictConfig)
    (timestamp : String) : Except EvalError Verdict :=
  if cs.isEmpty = true then .error (.invalidInput "components must be non-empty")
  else
    match cs.findSome? (invalidReason cfg.forbidNegativeWeights) with
    | some nm => .error (.invalidInput nm)
    | none => .ok (mkVerdict cs sc cfg timestamp)

/-- The concrete verdict of spec example 6: confidence 0.25,
raw points 7.3. -/
def exampleVerdictC1 : Verdict :=
  { timestamp := "2024-01-01T00:00:00Z"
    direction := .BULLISH
    points := 73 / 10
    error := 21 / 10
    confidence := 1 / 4
    components := []
    explanation := "example"
    data_quality := .LOW
    n_samples := .count 42 }

/-- The component sequence of spec examples 1 and 2:
momentum (weight 2, value 5) and volatility (weight -1, value 3). -/
def exComponents : List ComponentInput :=
  [⟨"momentum", 2, .fin 5⟩, ⟨"volatility", -1, .fin 3⟩]

/-- The confidence thresholds of spec examples 3 and 4:
low 100, insufficient 20. -/
def exThresholds : ConfidenceThresholds := ⟨100, 20⟩

/-- A configuration with direction threshold 5 (spec example 1). -/
def exCfg5 : VerdictConfig := ⟨exThresholds, 5, 2 / 5, false⟩

/-- A configuration with direction threshold 10 (spec example 2). -/
def exCfg10 : VerdictConfig := ⟨exThresholds, 10, 2 / 5, false⟩

/-- A component sequence with a tie in absolute contribution:
contributions 3, -3, 10, so alpha and beta tie with |3|. -/
def exComponentsTie : List ComponentInput :=
  [⟨"alpha", 1, .fin 3⟩, ⟨"beta", 1, .fin (-3)⟩, ⟨"gamma", 2, .fin 5⟩]

/-- JavaScript `Number(x.toFixed(3))`: round to 3 decimal places; when
the value is exactly between two candidates, ECMAScript picks the larger
one, i.e. halves round toward positive infinity. -/
def jsToFixed3 (q : ℚ) : ℚ := (⌊q * 1000 + 1 / 2⌋ : ℚ) / 1000

/-- The medians collected by the loop of `src/server/routes.ts`
lines 100-106: iterate over the volume levels of the slippage file and
push `median * 100` for every level whose `median` field is a number
(a level is modelled as `Option` of its numeric `median`). -/
def collectMedians (entries : List (Option ℚ)) : List ℚ :=
  entries.foldl
    (fun acc o =>
      match o with
      | some m => acc ++ [m * 100]
      | none => acc)
    []

/-- The slippage expectation computed by `src/server/routes.ts`
lines 97-115 from the volume levels of an existing slippage file:
sort the collected medians ascending with `(a, b) => a - b`, take
`mid = floor(length / 2)`, and return the middle element for an odd
count or the average of the two middle elements for an even count;
0 when no median was collected. -/
def slippageExpectationRaw (entries : List (Option ℚ)) : ℚ :=
  let allMedians := collectMedians entries
  if allMedians.length > 0 then
    let sorted := allMedians.insertionSort (fun a b => a ≤ b)
    let mid := allMedians.length / 2
    if allMedians.length % 2 = 0 then
      (sorted.getD (mid - 1) 0 + sorted.getD mid 0) / 2
    else
      sorted.getD mid 0
  else 0

/-- The value stored in `metrics.slippageExpectation` by the
`GET /api/ticker/:ticker` handler when the ticker data file exists
(`src/server/routes.ts` lines 97-119): 0 when there is no slippage file,
else the computed expectation, in both cases passed through
`Number(x.toFixed(3))`. -/
def slippageExpectationMetric (file : Option (List (Option ℚ))) : ℚ :=
  match file with
  | none => jsToFixed3 0
  | some entries => jsToFixed3 (slippageExpectationRaw entries)

/-- The claim's description of the stored slippage expectation: the
median of the per-volume-level median values each multiplied by 100 —
for an even number of medians, the average of the two middle values
after ascending sort — rounded to 3 decimal places; 0 when there is no
slippage file or it contains no numeric median fields. -/
def claimSlippageExpectation (file : Option (List (Option ℚ))) : ℚ :=
  match file with
  | none => 0
  | some entries =>
    let meds := (entries.filterMap id).map (fun m => m * 100)
    if meds = [] then 0
    else
      let sorted := meds.insertionSort (fun a b => a ≤ b)
      jsToFixed3
        (if meds.length % 2 = 0 then
          (sorted.getD (meds.length / 2 - 1) 0 +
            sorted.getD (meds.length / 2) 0) / 2
        else sorted.getD (meds.length / 2) 0)

instance : IsTotal (ℕ × VerdictComponent) compRel := by
  constructor
  intro a b
  rcases lt_trichotomy |a.2.contribution| |b.2.contribution| with h | h | h
  · exact Or.inr (Or.inl h)
  · rcases le_total a.1 b.1 with hi | hi
    · exact Or.inl (Or.inr ⟨h, hi⟩)
    · exact Or.inr (Or.inr ⟨h.symm, hi⟩)
  · exact Or.inl (Or.inl h)

instance : IsTrans (ℕ × VerdictComponent) compRel := by
  constructor
  intro a b c hab hbc
  rcases hab with hab | ⟨hab, hab'⟩ <;> rcases hbc with hbc | ⟨hbc, hbc'⟩
  · exact Or.inl (hbc.trans hab)
  · exact Or.inl (hbc ▸ hab)
  · exact Or.inl (hab ▸ hbc)
  · exact Or.inr ⟨hab.trans hbc, le_trans hab' hbc'⟩

/-- Sorting the components is a permutation. -/
theorem sortComponents_perm (l : List VerdictComponent) :
    (sortComponents l).Perm l := by
  unfold sortComponents
  have h := (List.perm_insertionSort compRel l.enum).map Prod.snd
  rwa [List.enum_map_snd] at h

/-- Characterization of a successful evaluation. -/
theorem evaluate_eq_ok_iff (cs : List ComponentInput) (sc : NSamples)
    (cfg : VerdictConfig) (ts : String) (v : Verdict) :
    evaluate cs sc cfg ts = .ok v ↔
      cs.isEmpty = false ∧
      cs.findSome? (invalidReason cfg.forbidNegativeWeights) = none ∧
      v = mkVerdict cs sc cfg ts := by
  unfold evaluate
  cases h1 : cs.isEmpty
  · cases h2 : cs.findSome? (invalidReason cfg.forbidNegativeWeights) with
    | none => simp [eq_comm]
    | some nm => simp
  · simp

/-- Characterization of per-component validity. -/
theorem invalidReason_eq_none_iff (forbidNeg : Bool) (c : ComponentInput) :
    invalidReason forbidNeg c = none ↔
      c.value.isFinite = true ∧ ¬(forbidNeg = true ∧ c.weight < 0) := by
  unfold invalidReason
  split_ifs with h1 h2
  · simp_all
  · simp_all
  · simp_all

/-- Case analysis of the direction rule under a positive threshold. -/
theorem directionOf_iff (pts threshold : ℚ) (ht : 0 < threshold) :
    (directionOf pts threshold = .BULLISH ↔ threshold ≤ pts) ∧
    (directionOf pts threshold = .BEARISH ↔ pts ≤ -threshold) ∧
    (directionOf pts threshold = .NEUTRAL ↔
      -threshold < pts ∧ pts < threshold) := by
  unfold directionOf
  split_ifs with h1 h2
  · refine ⟨⟨fun _ => h1, fun _ => rfl⟩, ⟨fun h => ?_, fun h => ?_⟩,
      ⟨fun h => ?_, fun h => ?_⟩⟩
    · simp at h
    · exfalso; linarith
    · simp at h
    · exfalso; linarith [h.2]
  · refine ⟨⟨fun h => ?_, fun h => ?_⟩, ⟨fun _ => h2, fun _ => rfl⟩,
      ⟨fun h => ?_, fun h => ?_⟩⟩
    · simp at h
    · exfalso; linarith
    · simp at h
    · exfalso; linarith [h.1]
  · refine ⟨⟨fun h => ?_, fun h => ?_⟩, ⟨fun h => ?_, fun h => ?_⟩,
      ⟨fun _ => ⟨by linarith, by linarith⟩, fun _ => rfl⟩⟩
    · simp at h
    · exfalso; linarith
    · simp at h
    · exfalso; linarith

/-- C1: when confidence is below the 0.4 cutoff, the displayed points are
the raw points rounded to the nearest multiple of 5 (a multiple of 5
within 5/2 of the raw value, computed by the JavaScript rounding rule);
otherwise the raw points are displayed unrounded; the displayed error
band is always the raw stored `error`, and the stored `points` field is
untouched by the display computation. -/
theorem C1_display_rounding (v : Verdict) :
    (v.confidence < 2 / 5 →
      roundedPoints v = (jsRound (v.points / 5) : ℚ) * 5 ∧
      (∃ k : ℤ, roundedPoints v = 5 * k) ∧
      |roundedPoints v - v.points| ≤ 5 / 2) ∧
    (2 / 5 ≤ v.confidence → roundedPoints v = v.points) ∧
    displayedError v = v.error := by
  refine ⟨fun hc => ?_, fun hc => ?_, rfl⟩
  · have hval : roundedPoints v = (jsRound (v.points / 5) : ℚ) * 5 := by
      simp [roundedPoints, hc]
    refine ⟨hval, ⟨jsRound (v.points / 5), by rw [hval]; ring⟩, ?_⟩
    rw [hval]
    have h1 := Int.floor_le (v.points / 5 + 1 / 2)
    have h2 := Int.lt_floor_add_one (v.points / 5 + 1 / 2)
    rw [abs_le]
    unfold jsRound
    constructor <;> nlinarith [h1, h2]
  · simp [roundedPoints, not_lt.mpr hc]

/-- Witness for C1 at spec example 6: confidence 0.25 is below the cutoff
0.4, displayed points are 5 (a multiple of 5 within 5/2 of 7.3), and the
stored raw points remain 7.3 while the displayed error is the raw 2.1. -/
theorem C1_display_rounding_witness :
    (1 : ℚ) / 4 < 2 / 5 ∧
    roundedPoints exampleVerdictC1 = 5 ∧
    exampleVerdictC1.points = 73 / 10 ∧
    displayedError exampleVerdictC1 = 21 / 10 := by
  have h := (C1_display_rounding exampleVerdictC1).1 (by norm_num [exampleVerdictC1])
  refine ⟨by norm_num, ?_, rfl, rfl⟩
  rw [h.1]
  norm_num [jsRound, exampleVerdictC1]

/-- C7: the serialized `n_samples` field admits both permitted shapes
(bare count and structured breakdown), and the VerdictTile consumer
handles both: it displays the bare count directly for a number and the
`features` sub-count for the structured object. -/
theorem C7_n_samples_both_shapes :
    (∀ n : ℕ, displayedSamples (.count n) = n) ∧
    (∀ s m f : ℕ, displayedSamples (.breakdown s m f) = f) :=
  ⟨fun _ => rfl, fun _ _ _ => rfl⟩

/-- C9: for every sizing curve and every (finite) confidence and error
input, the trade-sizing multiplier obtained by applying the curve and
clamping lies in the closed interval `[0, 1]`. -/
theorem C9_multiplier_bounds (curve : ℚ → ℚ → ℚ) (confidence err : ℚ) :
    0 ≤ applySizingCurve curve confidence err ∧
    applySizingCurve curve confidence err ≤ 1 := by
  unfold applySizingCurve clamp01
  exact ⟨le_max_left _ _, max_le (by norm_num) (min_le_left _ _)⟩

/-- C2: for every valid input accepted by the engine and every configured
(positive) direction threshold, the output direction is BULLISH iff
`points >= directionThreshold`, BEARISH iff
`points <= -directionThreshold`, and NEUTRAL otherwise. -/
theorem C2_direction_consistency (cs : List ComponentInput) (sc : NSamples)
    (cfg : VerdictConfig) (ts : String) (v : Verdict)
    (ht : 0 < cfg.directionThreshold)
    (hv : evaluate cs sc cfg ts = .ok v) :
    (v.direction = .BULLISH ↔ cfg.directionThreshold ≤ v.points) ∧
    (v.direction = .BEARISH ↔ v.points ≤ -cfg.directionThreshold) ∧
    (v.direction = .NEUTRAL ↔
      -cfg.directionThreshold < v.points ∧ v.points < cfg.directionThreshold) := by
  obtain ⟨-, -, rfl⟩ := (evaluate_eq_ok_iff cs sc cfg ts v).mp hv
  have hdir : (mkVerdict cs sc cfg ts).direction =
      directionOf (mkVerdict cs sc cfg ts).points cfg.directionThreshold := rfl
  rw [hdir]
  exact directionOf_iff _ _ ht

/-- Witness for C2 at spec examples 1 and 2: the components
momentum (2, 5) and volatility (-1, 3) give points 7, which is BULLISH
under direction threshold 5 and NEUTRAL under direction threshold 10. -/
theorem C2_direction_consistency_witness :
    evaluate exComponents (.count 500) exCfg5 "t" =
      .ok (mkVerdict exComponents (.count 500) exCfg5 "t") ∧
    (mkVerdict exComponents (.count 500) exCfg5 "t").points = 7 ∧
    (mkVerdict exComponents (.count 500) exCfg5 "t").direction = .BULLISH ∧
    (mkVerdict exComponents (.count 500) exCfg10 "t").direction = .NEUTRAL := by
  have hpts5 : (mkVerdict exComponents (.count 500) exCfg5 "t").points = 7 := by
    show ((computeComponents exComponents).map (fun c => c.contribution)).sum = 7
    norm_num [computeComponents, mkComponent, JsNum.toRat, exComponents]
  have hpts10 : (mkVerdict exComponents (.count 500) exCfg10 "t").points = 7 := by
    show ((computeComponents exComponents).map (fun c => c.contribution)).sum = 7
    norm_num [computeComponents, mkComponent, JsNum.toRat, exComponents]
  have h5 := C2_direction_consistency exComponents (.count 500) exCfg5 "t" _
    (by norm_num [exCfg5]) rfl
  have h10 := C2_direction_consistency exComponents (.count 500) exCfg10 "t" _
    (by norm_num [exCfg10]) rfl
  refine ⟨rfl, hpts5, h5.1.mpr ?_, (h10.2.2).mpr ?_⟩
  · rw [hpts5]; norm_num [exCfg5]
  · rw [hpts10]; constructor <;> norm_num [exCfg10]

/-- C3: for every input accepted by the engine, each output component's
contribution equals its weight times its value, and the verdict's
`points` equals exactly the sum of the contributions of the output
components. -/
theorem C3_points_additivity (cs : List ComponentInput) (sc : NSamples)
    (cfg : VerdictConfig) (ts : String) (v : Verdict)
    (hv : evaluate cs sc cfg ts = .ok v) :
    (∀ c ∈ v.components, c.contribution = c.weight * c.value) ∧
    v.points = (v.components.map (fun c => c.contribution)).sum := by
  obtain ⟨-, -, rfl⟩ := (evaluate_eq_ok_iff cs sc cfg ts v).mp hv
  have hcomp : (mkVerdict cs sc cfg ts).components =
      sortComponents (computeComponents cs) := rfl
  have hpts : (mkVerdict cs sc cfg ts).points =
      ((computeComponents cs).map (fun c => c.contribution)).sum := rfl
  constructor
  · intro c hc
    rw [hcomp] at hc
    have hc' : c ∈ computeComponents cs :=
      (sortComponents_perm (computeComponents cs)).mem_iff.mp hc
    obtain ⟨ci, -, rfl⟩ := List.mem_map.mp hc'
    rfl
  · rw [hcomp, hpts]
    exact (((sortComponents_perm (computeComponents cs)).map
      (fun c => c.contribution)).sum_eq).symm

/-- Witness for C3 at spec example 1: on the momentum/volatility input the
points equal the sum of the output contributions, namely 7. -/
theorem C3_points_additivity_witness :
    (mkVerdict exComponents (.count 500) exCfg5 "t").points =
      ((mkVerdict exComponents (.count 500) exCfg5 "t").components.map
        (fun c => c.contribution)).sum ∧
    (mkVerdict exComponents (.count 500) exCfg5 "t").points = 7 := by
  refine ⟨(C3_points_additivity exComponents (.count 500) exCfg5 "t" _ rfl).2, ?_⟩
  show ((computeComponents exComponents).map (fun c => c.contribution)).sum = 7
  norm_num [computeComponents, mkComponent, JsNum.toRat, exComponents]

/-- C8: the engine is deterministic — it is a pure function of its
arguments, so any two calls on the same tuple agree — and the timestamp
of a produced verdict is exactly the caller-supplied one (there is no
implicit clock in the engine). -/
theorem C8_determinism (cs : List ComponentInput) (sc : NSamples)
    (cfg : VerdictConfig) (ts : String) :
    evaluate cs sc cfg ts = evaluate cs sc cfg ts ∧
    (∀ v, evaluate cs sc cfg ts = .ok v → v.timestamp = ts) := by
  refine ⟨rfl, fun v hv => ?_⟩
  obtain ⟨-, -, rfl⟩ := (evaluate_eq_ok_iff cs sc cfg ts v).mp hv
  rfl

/-- Witness for C8: on the concrete spec-example input the produced
verdict carries the caller-supplied timestamp. -/
theorem C8_determinism_witness :
    (mkVerdict exComponents (.count 500) exCfg5 "ts-injected").timestamp =
      "ts-injected" :=
  (C8_determinism exComponents (.count 500) exCfg5 "ts-injected").2 _ rfl

/-- An evaluation fails exactly when the input is empty or some component
is flagged by the validator. -/
theorem evaluate_error_iff (cs : List ComponentInput) (sc : NSamples)
    (cfg : VerdictConfig) (ts : String) :
    (∃ msg, evaluate cs sc cfg ts = .error (.invalidInput msg)) ↔
      cs.isEmpty = true ∨
        cs.findSome? (invalidReason cfg.forbidNegativeWeights) ≠ none := by
  unfold evaluate
  cases h1 : cs.isEmpty
  · cases h2 : cs.findSome? (invalidReason cfg.forbidNegativeWeights) with
    | none => simp
    | some nm => simp
  · simp

/-- The validator flags some component exactly when some value is
non-finite or, with negative weights forbidden, some weight is
negative. -/
theorem invalid_found_iff (cs : List ComponentInput) (forbidNeg : Bool) :
    cs.findSome? (invalidReason forbidNeg) ≠ none ↔
      (∃ c ∈ cs, c.value.isFinite = false) ∨
        (forbidNeg = true ∧ ∃ c ∈ cs, c.weight < 0) := by
  rw [Ne, List.findSome?_eq_none_iff]
  push_neg
  constructor
  · rintro ⟨c, hc, hbad⟩
    by_cases hf : c.value.isFinite = false
    · exact Or.inl ⟨c, hc, hf⟩
    · have hf' : c.value.isFinite = true := by
        cases hb : c.value.isFinite
        · exact absurd hb hf
        · rfl
      by_cases hw : forbidNeg = true ∧ c.weight < 0
      · exact Or.inr ⟨hw.1, c, hc, hw.2⟩
      · exact absurd ((invalidReason_eq_none_iff forbidNeg c).mpr ⟨hf', hw⟩) hbad
  · rintro (⟨c, hc, hf⟩ | ⟨hF, c, hc, hw⟩)
    · refine ⟨c, hc, fun hnone => ?_⟩
      have := ((invalidReason_eq_none_iff forbidNeg c).mp hnone).1
      rw [this] at hf
      cases hf
    · refine ⟨c, hc, fun hnone => ?_⟩
      exact ((invalidReason_eq_none_iff forbidNeg c).mp hnone).2 ⟨hF, hw⟩

/-- C4: the engine fails with `InvalidInput` exactly when the component
sequence is empty, some component value is non-finite, or a weight is
negative while the configuration forbids negative weights; every failure
is an `InvalidInput`, and on every other input (regardless of sample
counts) the caller receives a verdict. -/
theorem C4_rejection_iff (cs : List ComponentInput) (sc : NSamples)
    (cfg : VerdictConfig) (ts : String) :
    ((∃ msg, evaluate cs sc cfg ts = .error (.invalidInput msg)) ↔
      cs = [] ∨ (∃ c ∈ cs, c.value.isFinite = false) ∨
        (cfg.forbidNegativeWeights = true ∧ ∃ c ∈ cs, c.weight < 0)) ∧
    (∀ e, evaluate cs sc cfg ts = .error e → ∃ msg, e = .invalidInput msg) ∧
    (¬(cs = [] ∨ (∃ c ∈ cs, c.value.isFinite = false) ∨
        (cfg.forbidNegativeWeights = true ∧ ∃ c ∈ cs, c.weight < 0)) →
      ∃ v, evaluate cs sc cfg ts = .ok v) := by
  have hmain : (∃ msg, evaluate cs sc cfg ts = .error (.invalidInput msg)) ↔
      cs = [] ∨ (∃ c ∈ cs, c.value.isFinite = false) ∨
        (cfg.forbidNegativeWeights = true ∧ ∃ c ∈ cs, c.weight < 0) := by
    rw [evaluate_error_iff cs sc cfg ts,
      invalid_found_iff cs cfg.forbidNegativeWeights, List.isEmpty_iff]
  refine ⟨hmain, fun e he => ?_, fun hnot => ?_⟩
  · cases e with
    | invalidInput m => exact ⟨m, rfl⟩
  · cases hval : evaluate cs sc cfg ts with
    | error e =>
      exfalso
      apply hnot
      apply hmain.mp
      cases e with
      | invalidInput m => exact ⟨m, hval⟩
    | ok v => exact ⟨v, rfl⟩

/-- Witness for C4: the empty input and a NaN-valued component are
rejected with `InvalidInput`, while a valid input with sample count 0
(insufficient data) still yields a verdict rather than an error. -/
theorem C4_rejection_iff_witness :
    (∃ msg, evaluate [] (.count 500) exCfg5 "t" = .error (.invalidInput msg)) ∧
    (∃ msg, evaluate [⟨"bad", 1, .nan⟩] (.count 500) exCfg5 "t" =
      .error (.invalidInput msg)) ∧
    (∃ v, evaluate exComponents (.count 0) exCfg5 "t" = .ok v) := by
  refine ⟨(C4_rejection_iff [] (.count 500) exCfg5 "t").1.mpr (Or.inl rfl),
    (C4_rejection_iff [⟨"bad", 1, .nan⟩] (.count 500) exCfg5 "t").1.mpr
      (Or.inr (Or.inl ⟨⟨"bad", 1, .nan⟩, by simp, rfl⟩)),
    (C4_rejection_iff exComponents (.count 0) exCfg5 "t").2.2 ?_⟩
  rintro (h | ⟨c, hc, hbad⟩ | ⟨hF, -⟩)
  · exact absurd h (by simp [exComponents])
  · simp only [exComponents, List.mem_cons, List.not_mem_nil, or_false] at hc
    rcases hc with rfl | rfl <;> simp [JsNum.isFinite] at hbad
  · simp [exCfg5] at hF

/-- C5: the data-quality grade is INSUFFICIENT below the `insufficient`
threshold, LOW between `insufficient` and `low`, and GOOD otherwise,
with the insufficient check applied first; and every verdict produced by
the engine carries exactly this grade of the relevant sample count. -/
theorem C5_data_quality_thresholds :
    (∀ (n : ℕ) (t : ConfidenceThresholds),
      (n < t.insufficient → gradeDataQuality n t = .INSUFFICIENT) ∧
      (t.insufficient ≤ n → n < t.low → gradeDataQuality n t = .LOW) ∧
      (t.insufficient ≤ n → t.low ≤ n → gradeDataQuality n t = .GOOD)) ∧
    (∀ (cs : List ComponentInput) (sc : NSamples) (cfg : VerdictConfig)
        (ts : String) (v : Verdict), evaluate cs sc cfg ts = .ok v →
      v.data_quality =
        gradeDataQuality (relevantCount sc) cfg.confidenceThresholds) := by
  constructor
  · intro n t
    refine ⟨fun h => ?_, fun h1 h2 => ?_, fun h1 h2 => ?_⟩
    · simp [gradeDataQuality, h]
    · simp [gradeDataQuality, Nat.not_lt.mpr h1, h2]
    · simp [gradeDataQuality, Nat.not_lt.mpr h1, Nat.not_lt.mpr h2]
  · intro cs sc cfg ts v hv
    obtain ⟨-, -, rfl⟩ := (evaluate_eq_ok_iff cs sc cfg ts v).mp hv
    rfl

/-- Witness for C5 at spec examples 3 and 4: with thresholds
low 100 and insufficient 20, a count of 50 grades LOW and a count
of 10 grades INSUFFICIENT; a verdict evaluated at sample count 50
carries the LOW grade. -/
theorem C5_data_quality_thresholds_witness :
    gradeDataQuality 50 exThresholds = .LOW ∧
    gradeDataQuality 10 exThresholds = .INSUFFICIENT ∧
    (mkVerdict exComponents (.count 50) exCfg5 "t").data_quality = .LOW := by
  have h50 := (C5_data_quality_thresholds.1 50 exThresholds).2.1
    (by decide) (by decide)
  have h10 := (C5_data_quality_thresholds.1 10 exThresholds).1 (by decide)
  have hlink := C5_data_quality_thresholds.2 exComponents (.count 50) exCfg5
    "t" _ rfl
  exact ⟨h50, h10, by rw [hlink]; exact h50⟩

/-- C6: the output component sequence of every successful evaluation is
the input component sequence reordered so that absolute contribution is
descending and components with equal absolute contribution keep their
original relative input order (positions strictly increasing on ties):
the list of position-tagged output components is a permutation of the
position-tagged input components satisfying that pairwise order. -/
theorem C6_component_ordering (cs : List ComponentInput) (sc : NSamples)
    (cfg : VerdictConfig) (ts : String) (v : Verdict)
    (hv : evaluate cs sc cfg ts = .ok v) :
    ∃ pl : List (ℕ × VerdictComponent),
      pl.Perm (computeComponents cs).enum ∧
      pl.map Prod.snd = v.components ∧
      pl.Pairwise (fun a b =>
        |b.2.contribution| < |a.2.contribution| ∨
          (|a.2.contribution| = |b.2.contribution| ∧ a.1 < b.1)) := by
  obtain ⟨-, -, rfl⟩ := (evaluate_eq_ok_iff cs sc cfg ts v).mp hv
  refine ⟨(computeComponents cs).enum.insertionSort compRel,
    List.perm_insertionSort _ _, rfl, ?_⟩
  have hsorted : ((computeComponents cs).enum.insertionSort compRel).Pairwise
      compRel := List.sorted_insertionSort compRel _
  have hnody : ((computeComponents cs).enum.insertionSort compRel).Pairwise
      (fun a b => a.1 ≠ b.1) := by
    have hperm := (List.perm_insertionSort compRel
      (computeComponents cs).enum).map Prod.fst
    have hnod : (((computeComponents cs).enum.insertionSort compRel).map
        Prod.fst).Nodup :=
      hperm.nodup_iff.mpr (List.nodup_enum_map_fst _)
    exact List.pairwise_map.mp hnod
  refine (hsorted.and hnody).imp fun {a b} hab => ?_
  rcases hab with ⟨hr | ⟨heq, hle⟩, hne⟩
  · exact Or.inl hr
  · exact Or.inr ⟨heq, lt_of_le_of_ne hle hne⟩

/-- Witness for C6 on a tie: contributions 3, -3, 10 sort into gamma
(|10|), then alpha before beta (both |3|, original order kept), and the
pairwise stability property holds for the tagged output. -/
theorem C6_component_ordering_witness :
    evaluate exComponentsTie (.count 500) exCfg5 "t" =
      .ok (mkVerdict exComponentsTie (.count 500) exCfg5 "t") ∧
    (mkVerdict exComponentsTie (.count 500) exCfg5 "t").components.map
      (fun c => c.name) = ["gamma", "alpha", "beta"] ∧
    (∃ pl : List (ℕ × VerdictComponent),
      pl.Perm (computeComponents exComponentsTie).enum ∧
      pl.map Prod.snd =
        (mkVerdict exComponentsTie (.count 500) exCfg5 "t").components ∧
      pl.Pairwise (fun a b =>
        |b.2.contribution| < |a.2.contribution| ∨
          (|a.2.contribution| = |b.2.contribution| ∧ a.1 < b.1))) := by
  refine ⟨rfl, ?_,
    C6_component_ordering exComponentsTie (.count 500) exCfg5 "t" _ rfl⟩
  show (sortComponents (computeComponents exComponentsTie)).map
    (fun c => c.name) = _
  norm_num [sortComponents, List.insertionSort, List.orderedInsert, compRel,
    List.enum, List.enumFrom, computeComponents, mkComponent, JsNum.toRat,
    exComponentsTie]

/-- The collection loop gathers exactly the numeric medians, in order,
each multiplied by 100. -/
theorem collectMedians_eq (entries : List (Option ℚ)) :
    collectMedians entries = (entries.filterMap id).map (fun m => m * 100) := by
  have haux : ∀ (l : List (Option ℚ)) (acc : List ℚ),
      l.foldl
        (fun acc o =>
          match o with
          | some m => acc ++ [m * 100]
          | none => acc)
        acc = acc ++ (l.filterMap id).map (fun m => m * 100) := by
    intro l
    induction l with
    | nil => intro acc; simp
    | cons o l ih =>
      intro acc
      cases o with
      | none => simpa using ih acc
      | some m => simpa [List.append_assoc] using ih (acc ++ [m * 100])
  simpa using haux entries []

/-- C10: for every slippage-file content, the value stored in
`metrics.slippageExpectation` by the ticker handler equals the claim's
description — the median of the per-volume-level numeric medians times
100 (averaging the two middle values of the ascending sort for an even
count) rounded to 3 decimal places, and 0 when the file is absent or
holds no numeric median. -/
theorem C10_slippage_expectation (file : Option (List (Option ℚ))) :
    slippageExpectationMetric file = claimSlippageExpectation file := by
  cases file with
  | none =>
    show jsToFixed3 0 = 0
    norm_num [jsToFixed3]
  | some entries =>
    show jsToFixed3 (slippageExpectationRaw entries) = _
    simp only [slippageExpectationRaw, claimSlippageExpectation,
      collectMedians_eq]
    set meds := (entries.filterMap id).map (fun m => m * 100) with hmeds
    clear_value meds
    cases meds with
    | nil => norm_num [jsToFixed3]
    | cons a l => simp

end GammaX
